import Mathlib

/-!
Shallow embedding of `view.go` from the pilosa repository: the `View`
partition registry, its lifecycle (`Open` / `openFragments` / `Close`),
the slice-routing mutations (`SetBit` / `ClearBit`), lazy creation
(`CreateFragmentIfNotExists`), and the path/naming helpers.

External collaborators (the filesystem, the `Fragment` partition unit's
own behaviour, `SliceWidth`) are parameters gathered in an `Env` record;
the embedding passes the `View` state explicitly and keeps ghost fields
(`nextUid`, `openCalls`, `closeCalls`, `setBitCalls`, `clearBitCalls`,
`createdDirs`, `statsCount`) recording instance identity and the calls
the Go code makes on its collaborators.
-/

namespace Pilosa

/-- Model of Go `strings.Join(elems, "/")` on a list already stripped of
leading empty elements, as used by `filepath.Join`. -/
def joinNonEmpty : List String → String
  | [] => ""
  | [x] => x
  | x :: y :: xs => x ++ "/" ++ joinNonEmpty (y :: xs)

/-- Model of Go `filepath.Join`: skip leading empty elements, join the rest
with `/`. (Go additionally runs `Clean`, which is the identity on the
already-clean components produced here.) -/
def filepathJoin (elems : List String) : String :=
  joinNonEmpty (elems.dropWhile (fun e => e = ""))

/-- Characters after the last `/` of a character list (the whole list when
it has no `/`). -/
def lastComponent (cs : List Char) : List Char :=
  cs.foldl (fun acc c => if c = '/' then [] else acc ++ [c]) []

/-- Model of Go `filepath.Base`: `"."` for the empty path, otherwise strip
trailing slashes and keep the last path component (`"/"` if nothing is
left). -/
def filepathBase (s : String) : String :=
  if s.data = [] then "." else
  let t := (s.data.reverse.dropWhile (fun c => c = '/')).reverse
  if t = [] then "/" else String.mk (lastComponent t)

/-- Model of Go `strconv.ParseUint(s, 10, 64)`: succeeds exactly on a
non-empty all-digit string whose value fits in 64 bits. -/
def parseUint64 (s : String) : Option Nat :=
  if s.data = [] then none
  else if s.data.all (fun c => c.isDigit) then
    let n := s.data.foldl (fun acc c => acc * 10 + (c.toNat - 48)) 0
    if n < 2 ^ 64 then some n else none
  else none

/-- Model of the external `Fragment` partition unit's handle, as constructed
by `NewFragment(path, db, frame, view, slice)`. `uid` is a ghost field: Go
allocates a fresh pointer per `newFragment` call, and `uid` records that
identity. `bitmapAttrStore` mirrors the `frag.BitmapAttrStore = v.BitmapAttrStore`
wiring (`none` = the Go nil before wiring). -/
structure Fragment where
  uid : Nat
  path : String
  db : String
  frame : String
  view : String
  slice : Nat
  bitmapAttrStore : Option Nat
deriving DecidableEq

/-- One entry returned by `Readdir` on the fragments directory. -/
structure DirEntry where
  name : String
  isDir : Bool
deriving DecidableEq

/-- Outcome of `os.Open` + `Readdir` on the fragments directory:
it may not exist (`os.IsNotExist`), fail to open, fail to list, or
yield a list of entries. -/
inductive DirList where
  | notExist
  | openFailed (e : String)
  | readFailed (e : String)
  | entries (fis : List DirEntry)
deriving DecidableEq

/-- Environment of external collaborators: the process-wide `SliceWidth`
constant (defined outside `view.go`), the filesystem outcomes seen by
`Open`/`openFragments`, and the external `Fragment`'s lifecycle and
mutation behaviour. `fragOpenErr` is keyed by slice (the fragment's path
is a function of the slice); `fragSetBit`/`fragClearBit` give the
(changed, error) pair the fragment returns for given arguments. -/
structure Env where
  sliceWidth : Nat
  mkdirViewErr : Option String
  mkdirFragmentsErr : Option String
  dirList : DirList
  fragOpenErr : Nat → Option String
  fragCloseErr : Nat → Option String
  fragSetBit : Nat → Nat → Nat → Bool × Option String
  fragClearBit : Nat → Nat → Nat → Bool × Option String

/-- The `View` state. `fragments` is the Go `map[uint64]*Fragment`
registry, embedded as an association list with unique keys.
`bitmapAttrStore` is the opaque shared attribute-store reference.
The remaining fields are ghost state: `nextUid` allocates fragment
identities, `openCalls` logs each `frag.Open()` invocation by slice,
`closeCalls` logs each `frag.Close()` attempt by fragment uid,
`setBitCalls`/`clearBitCalls` log each delegated mutation as
(fragment uid, bitmapID, profileID), `createdDirs` logs directories
created by `os.MkdirAll`, and `statsCount` counts the
`stats.Count("maxSlice", 1)` increments. -/
structure View where
  path : String
  db : String
  frame : String
  name : String
  fragments : List (Nat × Fragment)
  bitmapAttrStore : Nat
  nextUid : Nat
  openCalls : List Nat
  closeCalls : List Nat
  setBitCalls : List (Nat × Nat × Nat)
  clearBitCalls : List (Nat × Nat × Nat)
  createdDirs : List String
  statsCount : Nat
deriving DecidableEq

/-- Model of Go map lookup `v.fragments[slice]`: `none` is the Go nil
result for an absent key. -/
def fragLookup : List (Nat × Fragment) → Nat → Option Fragment
  | [], _ => none
  | p :: l, k => if p.1 = k then some p.2 else fragLookup l k

/-- Model of Go map assignment `v.fragments[k] = f`: replace the binding
for `k` if present, otherwise append it. -/
def fragStore : List (Nat × Fragment) → Nat → Fragment → List (Nat × Fragment)
  | [], k, f => [(k, f)]
  | p :: l, k, f => if p.1 = k then (k, f) :: l else p :: fragStore l k f

/-- Model of `NewView(path, db, frame, name)`: an unopened view with an
empty registry, the no-op stats sink and discard log sink as defaults,
and a nil (`0`, opaque) attribute store to be assigned by the owner. -/
def NewView (path db frame name : String) : View :=
  { path := path, db := db, frame := frame, name := name
    fragments := []
    bitmapAttrStore := 0
    nextUid := 0
    openCalls := []
    closeCalls := []
    setBitCalls := []
    clearBitCalls := []
    createdDirs := []
    statsCount := 0 }

/-- Model of `View.FragmentPath(slice)`:
`filepath.Join(v.path, "fragments", strconv.FormatUint(slice, 10))`. -/
def View.FragmentPath (v : View) (slice : Nat) : String :=
  filepathJoin [v.path, "fragments", Nat.repr slice]

/-- Model of `View.newFragment(path, slice)`: constructs a fresh fragment
handle via `NewFragment(path, v.db, v.frame, v.name, slice)` and wires the
log sink and slice-tagged stats sub-scope (sinks themselves not modelled;
freshness of the returned pointer is modelled by allocating `nextUid`). -/
def View.newFragment (v : View) (path : String) (slice : Nat) : Fragment × View :=
  ({ uid := v.nextUid, path := path, db := v.db, frame := v.frame,
     view := v.name, slice := slice, bitmapAttrStore := none },
   { v with nextUid := v.nextUid + 1 })

/-- Model of `View.MaxSlice()`: maximum key of the registry, starting from
the zero value of `var max uint64`. -/
def View.MaxSlice (v : View) : Nat :=
  v.fragments.foldl (fun m p => if p.1 > m then p.1 else m) 0

/-- Model of `View.Fragments()`: a fresh slice holding every registered
fragment. -/
def View.Fragments (v : View) : List Fragment :=
  v.fragments.map Prod.snd

/-- Model of `View.Close()`: attempt `frag.Close()` on every registered
fragment with the result discarded (`_ = frag.Close()`), reset the
registry to a fresh empty map, return nil. The close attempts are logged
by uid in the `closeCalls` ghost field. -/
def View.Close (env : Env) (v : View) : Option String × View :=
  let _ignoredErrs := v.fragments.map (fun p => env.fragCloseErr p.2.slice)
  (none, { v with fragments := []
                  closeCalls := v.closeCalls ++ v.fragments.map (fun p => p.2.uid) })

/-- Model of the per-entry loop body of `View.openFragments()`: skip
directories, skip entries whose base name does not parse as a uint64,
otherwise construct the fragment at `FragmentPath(slice)` and open it;
on open failure abort the scan with the wrapped error (Go formats the
uint64 slice with the `%s` verb, producing `%!s(uint64=N)`); on success
wire the attribute store, register under `frag.Slice()`, bump the
`maxSlice` counter, and continue. -/
def View.openFragmentsLoop (env : Env) (v : View) : List DirEntry → Option String × View
  | [] => (none, v)
  | fi :: fis =>
    if fi.isDir then v.openFragmentsLoop env fis
    else
      match parseUint64 (filepathBase fi.name) with
      | none => v.openFragmentsLoop env fis
      | some slice =>
        let fv := v.newFragment (v.FragmentPath slice) slice
        let frag := fv.1
        let v1 := { fv.2 with openCalls := fv.2.openCalls ++ [slice] }
        match env.fragOpenErr slice with
        | some e =>
          (some ("open fragment: slice=%!s(uint64=" ++ Nat.repr slice ++ "), err=" ++ e), v1)
        | none =>
          let frag1 := { frag with bitmapAttrStore := some v1.bitmapAttrStore }
          let v2 := { v1 with fragments := fragStore v1.fragments frag1.slice frag1
                              statsCount := v1.statsCount + 1 }
          v2.openFragmentsLoop env fis

/-- Model of `View.openFragments()`: a missing fragments directory means
zero fragments (nil), any other open/list failure is returned, otherwise
the entries are processed in order. -/
def View.openFragments (env : Env) (v : View) : Option String × View :=
  match env.dirList with
  | DirList.notExist => (none, v)
  | DirList.openFailed e => (some e, v)
  | DirList.readFailed e => (some e, v)
  | DirList.entries fis => v.openFragmentsLoop env fis

/-- Model of the inner closure of `View.Open()`: `MkdirAll(v.path)`, then
`MkdirAll(filepath.Join(v.path, "fragments"))`, then `openFragments`.
Successful `MkdirAll` calls are logged in the `createdDirs` ghost field. -/
def View.openInner (env : Env) (v : View) : Option String × View :=
  match env.mkdirViewErr with
  | some e => (some e, v)
  | none =>
    let v1 := { v with createdDirs := v.createdDirs ++ [v.path] }
    match env.mkdirFragmentsErr with
    | some e => (some e, v1)
    | none =>
      let v2 := { v1 with createdDirs := v1.createdDirs ++ [filepathJoin [v1.path, "fragments"]] }
      v2.openFragments env

/-- Model of `View.Open()`: run the inner closure; on failure perform a
best-effort `v.Close()` whose result is discarded and return the original
error. -/
def View.Open (env : Env) (v : View) : Option String × View :=
  match v.openInner env with
  | (some e, v1) => (some e, (v1.Close env).2)
  | (none, v1) => (none, v1)

/-- Model of `View.createFragmentIfNotExists(slice)`: return the cached
fragment if registered; otherwise construct one at `FragmentPath(slice)`,
open it (propagating failure without registering), wire the attribute
store, register it under `frag.Slice()`, and bump the `maxSlice` counter.
The result pair mirrors Go's nilable `(*Fragment, error)`. -/
def View.createFragmentIfNotExists (env : Env) (v : View) (slice : Nat) :
    (Option Fragment × Option String) × View :=
  match fragLookup v.fragments slice with
  | some frag => ((some frag, none), v)
  | none =>
    let fv := v.newFragment (v.FragmentPath slice) slice
    let frag := fv.1
    let v1 := { fv.2 with openCalls := fv.2.openCalls ++ [slice] }
    match env.fragOpenErr slice with
    | some e => ((none, some e), v1)
    | none =>
      let frag1 := { frag with bitmapAttrStore := some v1.bitmapAttrStore }
      let v2 := { v1 with fragments := fragStore v1.fragments frag1.slice frag1
                          statsCount := v1.statsCount + 1 }
      ((some frag1, none), v2)

/-- Model of `View.CreateFragmentIfNotExists(slice)`: the lock-protected
wrapper (the mutex is not modelled; the embedding is sequential). -/
def View.CreateFragmentIfNotExists (env : Env) (v : View) (slice : Nat) :
    (Option Fragment × Option String) × View :=
  v.createFragmentIfNotExists env slice

/-- Model of `View.SetBit(bitmapID, profileID)`: route to
`slice = profileID / SliceWidth`, get-or-create the fragment, and on
success delegate `frag.SetBit` verbatim (logged in `setBitCalls` by the
fragment's uid). The `(none, none)` branch would be a nil dereference in
Go and is unreachable. -/
def View.SetBit (env : Env) (v : View) (bitmapID profileID : Nat) :
    (Bool × Option String) × View :=
  let slice := profileID / env.sliceWidth
  match v.CreateFragmentIfNotExists env slice with
  | ((_, some err), v1) => ((false, some err), v1)
  | ((some frag, none), v1) =>
    (env.fragSetBit slice bitmapID profileID,
     { v1 with setBitCalls := v1.setBitCalls ++ [(frag.uid, bitmapID, profileID)] })
  | ((none, none), v1) => ((false, none), v1)

/-- Model of `View.ClearBit(bitmapID, profileID)`: same routing as
`SetBit`, delegating `frag.ClearBit` verbatim. -/
def View.ClearBit (env : Env) (v : View) (bitmapID profileID : Nat) :
    (Bool × Option String) × View :=
  let slice := profileID / env.sliceWidth
  match v.CreateFragmentIfNotExists env slice with
  | ((_, some err), v1) => ((false, some err), v1)
  | ((some frag, none), v1) =>
    (env.fragClearBit slice bitmapID profileID,
     { v1 with clearBitCalls := v1.clearBitCalls ++ [(frag.uid, bitmapID, profileID)] })
  | ((none, none), v1) => ((false, none), v1)

/-- Registry invariant: every fragment stored under key `s` reports its
own slice identity as `s`. -/
def registryOk (v : View) : Prop :=
  ∀ p ∈ v.fragments, p.2.slice = p.1

instance (v : View) : Decidable (registryOk v) := by
  unfold registryOk; infer_instance

/-- Concrete environment with no failures; the fragments directory lists
the entries of the spec's discovery scenario. -/
def envOk : Env :=
  { sliceWidth := 4
    mkdirViewErr := none
    mkdirFragmentsErr := none
    dirList := DirList.entries [⟨"3", false⟩, ⟨"7", false⟩, ⟨"x", false⟩, ⟨"12.tmp", false⟩]
    fragOpenErr := fun _ => none
    fragCloseErr := fun _ => none
    fragSetBit := fun _ _ _ => (true, none)
    fragClearBit := fun _ _ _ => (false, none) }

/-- Concrete environment in which every `Fragment.Open` call fails. -/
def envOpenFail : Env :=
  { envOk with fragOpenErr := fun _ => some "boom" }

/-- Concrete environment in which creating the fragments directory fails. -/
def envMkdirFail : Env :=
  { envOk with mkdirFragmentsErr := some "denied" }

/-- Concrete unopened view. -/
def vW : View := NewView "root" "d" "f" "standard"

/-- The fragment `vW.createFragmentIfNotExists` builds for slice 1. -/
def fragW1 : Fragment :=
  { uid := 0, path := "root/fragments/1", db := "d", frame := "f",
    view := "standard", slice := 1, bitmapAttrStore := some 0 }

/-- The view state after creating slice 1 on `vW`. -/
def vWafter1 : View :=
  { vW with fragments := [(1, fragW1)], nextUid := 1, openCalls := [1], statsCount := 1 }

/-- The fragment `vW.createFragmentIfNotExists` builds for slice 2. -/
def fragW2 : Fragment :=
  { uid := 0, path := "root/fragments/2", db := "d", frame := "f",
    view := "standard", slice := 2, bitmapAttrStore := some 0 }

/-- The view state after creating slice 2 on `vW`. -/
def vWafter2 : View :=
  { vW with fragments := [(2, fragW2)], nextUid := 1, openCalls := [2], statsCount := 1 }

/-- The view state after a failed creation attempt on `vW` (a fragment was
allocated and its open invoked, but nothing registered). -/
def vWafterFail : View :=
  { vW with nextUid := 1, openCalls := [1] }

theorem fragLookup_fragStore_self (l : List (Nat × Fragment)) (k : Nat) (f : Fragment) :
    fragLookup (fragStore l k f) k = some f := by
  induction l with
  | nil => simp [fragStore, fragLookup]
  | cons p l ih =>
    by_cases h : p.1 = k
    · simp [fragStore, fragLookup, h]
    · simp [fragStore, fragLookup, h, ih]

theorem fragStore_of_lookup_none (l : List (Nat × Fragment)) (k : Nat) (f : Fragment)
    (h : fragLookup l k = none) : fragStore l k f = l ++ [(k, f)] := by
  induction l with
  | nil => simp [fragStore]
  | cons p l ih =>
    by_cases hp : p.1 = k
    · simp [fragLookup, hp] at h
    · simp [fragLookup, hp] at h
      simp [fragStore, hp, ih h]

theorem registryOk_fragStore (l : List (Nat × Fragment)) (k : Nat) (f : Fragment)
    (hl : ∀ p ∈ l, p.2.slice = p.1) (hf : f.slice = k) :
    ∀ p ∈ fragStore l k f, p.2.slice = p.1 := by
  induction l with
  | nil => simp [fragStore, hf]
  | cons q l ih =>
    by_cases hq : q.1 = k
    · intro p hp
      simp [fragStore, hq] at hp
      rcases hp with hp | hp
      · simp [hp, hf]
      · exact hl p (List.mem_cons_of_mem q hp)
    · intro p hp
      simp [fragStore, hq] at hp
      rcases hp with hp | hp
      · exact hl p (by simp [hp])
      · exact ih (fun p hp => hl p (List.mem_cons_of_mem q hp)) p hp

theorem createFragment_ghost_preserved (env : Env) (v : View) (slice : Nat) :
    (v.createFragmentIfNotExists env slice).2.setBitCalls = v.setBitCalls ∧
    (v.createFragmentIfNotExists env slice).2.clearBitCalls = v.clearBitCalls := by
  unfold View.createFragmentIfNotExists View.newFragment
  cases hl : fragLookup v.fragments slice with
  | some f => simp
  | none =>
    cases ho : env.fragOpenErr slice with
    | some e => simp [ho]
    | none => simp [ho]

/-- C1: `SetBit` and `ClearBit` compute the target slice as
`profileID / SliceWidth` (with `SliceWidth = 4`, row ids 0-3 route to
slice 0 and 4-7 to slice 1), obtain the partition for that slice via
`CreateFragmentIfNotExists`, delegate the mutation to that very fragment,
and return the fragment's changed-flag and error verbatim. -/
theorem setBit_clearBit_route_and_delegate (env : Env) (v : View) (bitmapID profileID : Nat)
    (frag : Fragment) (v1 : View)
    (h : v.CreateFragmentIfNotExists env (profileID / env.sliceWidth) = ((some frag, none), v1)) :
    v.SetBit env bitmapID profileID =
      (env.fragSetBit (profileID / env.sliceWidth) bitmapID profileID,
       { v1 with setBitCalls := v1.setBitCalls ++ [(frag.uid, bitmapID, profileID)] }) ∧
    v.ClearBit env bitmapID profileID =
      (env.fragClearBit (profileID / env.sliceWidth) bitmapID profileID,
       { v1 with clearBitCalls := v1.clearBitCalls ++ [(frag.uid, bitmapID, profileID)] }) ∧
    (env.sliceWidth = 4 → (profileID ≤ 3 → profileID / env.sliceWidth = 0) ∧
      (4 ≤ profileID → profileID ≤ 7 → profileID / env.sliceWidth = 1)) := by
  refine ⟨?_, ?_, ?_⟩
  · simp only [View.SetBit, h]
  · simp only [View.ClearBit, h]
  · intro hw
    rw [hw]
    constructor
    · intro hp; omega
    · intro hp1 hp2; omega

/-- Witness for C1: with `SliceWidth = 4`, setting a bit at row id 5
creates the fragment for slice 1 and delegates to it. -/
theorem setBit_clearBit_route_and_delegate_witness :
    vW.CreateFragmentIfNotExists envOk (5 / envOk.sliceWidth) = ((some fragW1, none), vWafter1) ∧
    vW.SetBit envOk 9 5 =
      (envOk.fragSetBit (5 / envOk.sliceWidth) 9 5,
       { vWafter1 with setBitCalls := vWafter1.setBitCalls ++ [(fragW1.uid, 9, 5)] }) :=
  ⟨by decide,
   (setBit_clearBit_route_and_delegate envOk vW 9 5 fragW1 vWafter1 (by decide)).1⟩

/-- C2: `CreateFragmentIfNotExists` is idempotent: when a call succeeds,
a second call with the same slice returns the identical fragment and
leaves the state unchanged, the fragment it returns is exactly the one
registered under that slice, and the fragment open lifecycle was invoked
at most once more than before the first call. -/
theorem createFragmentIfNotExists_idempotent (env : Env) (v : View) (slice : Nat)
    (h : (v.CreateFragmentIfNotExists env slice).1.2 = none) :
    ((v.CreateFragmentIfNotExists env slice).2.CreateFragmentIfNotExists env slice)
      = ((v.CreateFragmentIfNotExists env slice).1, (v.CreateFragmentIfNotExists env slice).2) ∧
    fragLookup (v.CreateFragmentIfNotExists env slice).2.fragments slice
      = (v.CreateFragmentIfNotExists env slice).1.1 ∧
    List.count slice (v.CreateFragmentIfNotExists env slice).2.openCalls
      ≤ List.count slice v.openCalls + 1 := by
  unfold View.CreateFragmentIfNotExists View.createFragmentIfNotExists View.newFragment at h ⊢
  cases hl : fragLookup v.fragments slice with
  | some f =>
    simp [hl]
  | none =>
    rw [hl] at h
    cases ho : env.fragOpenErr slice with
    | some e => rw [ho] at h; simp at h
    | none =>
      simp only [ho]
      refine ⟨?_, ?_, ?_⟩
      · rw [fragLookup_fragStore_self]
      · rw [fragLookup_fragStore_self]
      · simp [List.count_append]

/-- Witness for C2: creating slice 2 twice on a fresh view returns the
same fragment, leaves the state unchanged, and opens at most once. -/
theorem createFragmentIfNotExists_idempotent_witness :
    (vW.CreateFragmentIfNotExists envOk 2).1.2 = none ∧
    ((vW.CreateFragmentIfNotExists envOk 2).2.CreateFragmentIfNotExists envOk 2)
      = ((vW.CreateFragmentIfNotExists envOk 2).1, (vW.CreateFragmentIfNotExists envOk 2).2) :=
  ⟨by decide, (createFragmentIfNotExists_idempotent envOk vW 2 (by decide)).1⟩

/-- C5: `Close` logs a close attempt for every registered fragment no
matter what the per-fragment close results are, never surfaces an error,
resets the registry to empty, `Fragments()` is empty afterwards, and a
second `Close` returns no error and changes nothing. -/
theorem close_best_effort_idempotent (env : Env) (v : View) :
    v.Close env =
      (none, { v with fragments := []
                      closeCalls := v.closeCalls ++ v.fragments.map (fun p => p.2.uid) }) ∧
    (v.Close env).2.Fragments = [] ∧
    (v.Close env).2.fragments = [] ∧
    (v.Close env).2.Close env = (none, (v.Close env).2) := by
  refine ⟨rfl, rfl, rfl, ?_⟩
  simp [View.Close, View.Fragments]

/-- C9: when `CreateFragmentIfNotExists` fails inside `SetBit` or
`ClearBit`, the operation returns `changed = false` (the zero value)
together with that error, and no fragment-level mutation is attempted
(the mutation logs are unchanged). -/
theorem setBit_clearBit_error_propagation (env : Env) (v : View) (bitmapID profileID : Nat)
    (res : Option Fragment) (e : String) (v1 : View)
    (h : v.CreateFragmentIfNotExists env (profileID / env.sliceWidth) = ((res, some e), v1)) :
    v.SetBit env bitmapID profileID = ((false, some e), v1) ∧
    v.ClearBit env bitmapID profileID = ((false, some e), v1) ∧
    v1.setBitCalls = v.setBitCalls ∧
    v1.clearBitCalls = v.clearBitCalls := by
  have hg := createFragment_ghost_preserved env v (profileID / env.sliceWidth)
  have hv1 : (v.createFragmentIfNotExists env (profileID / env.sliceWidth)).2 = v1 :=
    congrArg Prod.snd h
  refine ⟨?_, ?_, ?_, ?_⟩
  · simp only [View.SetBit, h]
  · simp only [View.ClearBit, h]
  · rw [← hv1]; exact hg.1
  · rw [← hv1]; exact hg.2

/-- Witness for C9: with every fragment open failing, `SetBit` at row 5
returns `(false, the open error)` and logs no mutation. -/
theorem setBit_clearBit_error_propagation_witness :
    vW.CreateFragmentIfNotExists envOpenFail (5 / envOpenFail.sliceWidth)
      = ((none, some "boom"), vWafterFail) ∧
    vW.SetBit envOpenFail 9 5 = ((false, some "boom"), vWafterFail) :=
  ⟨by decide,
   (setBit_clearBit_error_propagation envOpenFail vW 9 5 none "boom" vWafterFail (by decide)).1⟩

/-- C10: `CreateFragmentIfNotExists` returns a fragment exactly when it
returns no error: never both absent and no error, never present together
with an error. -/
theorem createFragmentIfNotExists_some_iff_no_error (env : Env) (v : View) (slice : Nat) :
    (v.CreateFragmentIfNotExists env slice).1.1.isSome = true ↔
    (v.CreateFragmentIfNotExists env slice).1.2 = none := by
  unfold View.CreateFragmentIfNotExists View.createFragmentIfNotExists
  cases hl : fragLookup v.fragments slice with
  | some f => simp
  | none =>
    cases ho : env.fragOpenErr slice with
    | some e => simp [ho]
    | none => simp [ho]

theorem openFragmentsLoop_createdDirs (env : Env) (fis : List DirEntry) (v : View) :
    (v.openFragmentsLoop env fis).2.createdDirs = v.createdDirs := by
  induction fis generalizing v with
  | nil => rfl
  | cons fi fis ih =>
    cases hd : fi.isDir with
    | true => simp [View.openFragmentsLoop, hd, ih]
    | false =>
      cases hp : parseUint64 (filepathBase fi.name) with
      | none => simp [View.openFragmentsLoop, hd, hp, ih]
      | some slice =>
        cases ho : env.fragOpenErr slice with
        | some e => simp [View.openFragmentsLoop, View.newFragment, hd, hp, ho]
        | none => simp [View.openFragmentsLoop, View.newFragment, hd, hp, ho, ih]

theorem openInner_createdDirs (env : Env) (v : View) :
    ∃ more, (v.openInner env).2.createdDirs = v.createdDirs ++ more := by
  cases hm : env.mkdirViewErr with
  | some e => exact ⟨[], by simp [View.openInner, hm]⟩
  | none =>
    cases hf : env.mkdirFragmentsErr with
    | some e => exact ⟨[v.path], by simp [View.openInner, hm, hf]⟩
    | none =>
      refine ⟨[v.path, filepathJoin [v.path, "fragments"]], ?_⟩
      cases hd : env.dirList with
      | notExist => simp [View.openInner, View.openFragments, hm, hf, hd]
      | openFailed e => simp [View.openInner, View.openFragments, hm, hf, hd]
      | readFailed e => simp [View.openInner, View.openFragments, hm, hf, hd]
      | entries fis =>
        simp [View.openInner, View.openFragments, hm, hf, hd, openFragmentsLoop_createdDirs]

/-- C4: any failure of the inner steps of `Open` (directory creation or
fragment discovery) triggers a best-effort `Close` whose own result is
discarded, leaves the registry empty, and the original error is returned
to the caller; directories already created (the `createdDirs` log) are
not removed by the cleanup. -/
theorem open_failure_cleanup (env : Env) (v : View) (e : String) (v1 : View)
    (h : v.openInner env = (some e, v1)) :
    v.Open env = (some e, (v1.Close env).2) ∧
    (v.Open env).2.fragments = [] ∧
    (v1.Close env).2.createdDirs = v1.createdDirs ∧
    ∃ more, (v.Open env).2.createdDirs = v.createdDirs ++ more := by
  have hopen : v.Open env = (some e, (v1.Close env).2) := by
    unfold View.Open
    rw [h]
  refine ⟨hopen, by rw [hopen]; rfl, rfl, ?_⟩
  obtain ⟨more, hmore⟩ := openInner_createdDirs env v
  rw [h] at hmore
  exact ⟨more, by rw [hopen]; simpa [View.Close] using hmore⟩

/-- Witness for C4: when creating the fragments directory fails, `Open`
returns that error, the registry is empty, and the view root directory
already created is kept. -/
theorem open_failure_cleanup_witness :
    vW.openInner envMkdirFail = (some "denied", { vW with createdDirs := ["root"] }) ∧
    vW.Open envMkdirFail =
      (some "denied", (View.Close envMkdirFail { vW with createdDirs := ["root"] }).2) :=
  ⟨by decide,
   (open_failure_cleanup envMkdirFail vW "denied"
     { vW with createdDirs := ["root"] } (by decide)).1⟩

/-- C3: during discovery, subdirectory entries and entries whose names do
not parse as a non-negative decimal integer are silently skipped, and
every other entry is registered under its parsed slice number; for a
partitions directory with entries named "3", "7", "x", "12.tmp", opening
the view registers slices 3 and 7 only and `MaxSlice` then returns 7,
while an empty registry gives `MaxSlice` zero. -/
theorem openFragments_discovery :
    (∀ (env : Env) (v : View) (nm : String) (fis : List DirEntry),
      v.openFragmentsLoop env (⟨nm, true⟩ :: fis) = v.openFragmentsLoop env fis) ∧
    (∀ (env : Env) (v : View) (fi : DirEntry) (fis : List DirEntry),
      fi.isDir = false → parseUint64 (filepathBase fi.name) = none →
      v.openFragmentsLoop env (fi :: fis) = v.openFragmentsLoop env fis) ∧
    (vW.Open envOk).1 = none ∧
    (vW.Open envOk).2.fragments.map Prod.fst = [3, 7] ∧
    (vW.Open envOk).2.MaxSlice = 7 ∧
    vW.MaxSlice = 0 := by
  refine ⟨?_, ?_, by decide, by decide, by decide, by decide⟩
  · intro env v nm fis
    simp [View.openFragmentsLoop]
  · intro env v fi fis hd hp
    simp [View.openFragmentsLoop, hd, hp]

/-- Witness for C3: the entry named "12.tmp" is skipped silently. -/
theorem openFragments_discovery_witness :
    (⟨"12.tmp", false⟩ : DirEntry).isDir = false ∧
    parseUint64 (filepathBase "12.tmp") = none ∧
    vW.openFragmentsLoop envOk [⟨"12.tmp", false⟩] = vW.openFragmentsLoop envOk [] :=
  ⟨by decide, by decide,
   openFragments_discovery.2.1 envOk vW ⟨"12.tmp", false⟩ [] (by decide) (by decide)⟩

/-- C6: when a recognized entry's fragment fails to open during
discovery, the scan aborts at once (the remaining entries play no role in
the result), no fragment is registered, and the returned error is the
fragment's open error wrapped with the offending slice (Go's `%s` verb on
the uint64 slice renders it as `%!s(uint64=N)`). -/
theorem openFragments_abort_on_open_failure (env : Env) (v : View) (fi : DirEntry)
    (fis : List DirEntry) (slice : Nat) (e : String)
    (hd : fi.isDir = false)
    (hp : parseUint64 (filepathBase fi.name) = some slice)
    (ho : env.fragOpenErr slice = some e) :
    v.openFragmentsLoop env (fi :: fis) =
      (some ("open fragment: slice=%!s(uint64=" ++ Nat.repr slice ++ "), err=" ++ e),
       { v with nextUid := v.nextUid + 1, openCalls := v.openCalls ++ [slice] }) := by
  simp [View.openFragmentsLoop, View.newFragment, hd, hp, ho]

/-- Witness for C6: entry "5" fails to open with "boom"; entry "9" behind
it is never processed and the registry stays empty. -/
theorem openFragments_abort_on_open_failure_witness :
    (⟨"5", false⟩ : DirEntry).isDir = false ∧
    parseUint64 (filepathBase "5") = some 5 ∧
    envOpenFail.fragOpenErr 5 = some "boom" ∧
    vW.openFragmentsLoop envOpenFail [⟨"5", false⟩, ⟨"9", false⟩] =
      (some "open fragment: slice=%!s(uint64=5), err=boom",
       { vW with nextUid := vW.nextUid + 1, openCalls := vW.openCalls ++ [5] }) := by
  refine ⟨by decide, by decide, by decide, ?_⟩
  rw [openFragments_abort_on_open_failure envOpenFail vW ⟨"5", false⟩ [⟨"9", false⟩] 5 "boom"
    (by decide) (by decide) (by decide)]
  decide

theorem openFragmentsLoop_registryOk (env : Env) (fis : List DirEntry) (v : View)
    (h : registryOk v) : registryOk (v.openFragmentsLoop env fis).2 := by
  induction fis generalizing v with
  | nil => exact h
  | cons fi fis ih =>
    cases hd : fi.isDir with
    | true =>
      simp only [View.openFragmentsLoop, hd, if_true]
      exact ih v h
    | false =>
      cases hp : parseUint64 (filepathBase fi.name) with
      | none =>
        simp only [View.openFragmentsLoop, hd, Bool.false_eq_true, if_false, hp]
        exact ih v h
      | some slice =>
        cases ho : env.fragOpenErr slice with
        | some e =>
          simp only [View.openFragmentsLoop, View.newFragment, hd, Bool.false_eq_true,
            if_false, hp, ho]
          simpa [registryOk] using h
        | none =>
          simp only [View.openFragmentsLoop, View.newFragment, hd, Bool.false_eq_true,
            if_false, hp, ho]
          exact ih _ (fun p hp' => registryOk_fragStore v.fragments slice _ h rfl p hp')

theorem createFragmentIfNotExists_registryOk (env : Env) (v : View) (slice : Nat)
    (h : registryOk v) : registryOk (v.CreateFragmentIfNotExists env slice).2 := by
  unfold View.CreateFragmentIfNotExists View.createFragmentIfNotExists View.newFragment
  cases hl : fragLookup v.fragments slice with
  | some f => exact h
  | none =>
    cases ho : env.fragOpenErr slice with
    | some e => simpa [registryOk] using h
    | none =>
      simp only [ho]
      intro p hp
      exact registryOk_fragStore v.fragments slice _ h rfl p (by simpa using hp)

/-- C7: the registry invariant — every fragment stored under key `s`
reports its own slice identity as `s` — is preserved by `openFragments`,
`CreateFragmentIfNotExists` and `Close`. -/
theorem registry_invariant_preserved (env : Env) (v : View) (slice : Nat)
    (h : registryOk v) :
    registryOk (v.openFragments env).2 ∧
    registryOk (v.CreateFragmentIfNotExists env slice).2 ∧
    registryOk (v.Close env).2 := by
  refine ⟨?_, createFragmentIfNotExists_registryOk env v slice h, ?_⟩
  · unfold View.openFragments
    cases hd : env.dirList with
    | notExist => exact h
    | openFailed e => exact h
    | readFailed e => exact h
    | entries fis => exact openFragmentsLoop_registryOk env fis v h
  · intro p hp
    simp [View.Close] at hp

/-- Witness for C7: the invariant holds on the fresh view and is kept by
creating the fragment for slice 1. -/
theorem registry_invariant_preserved_witness :
    registryOk vW ∧ registryOk (vW.CreateFragmentIfNotExists envOk 1).2 :=
  ⟨by decide, (registry_invariant_preserved envOk vW 1 (by decide)).2.1⟩

/-- C8: `FragmentPath` is a pure function of the root path and the slice:
for a non-empty root it is the root followed by `/fragments/` and the
decimal rendering of the slice, with no padding and no extension. -/
theorem fragmentPath_deterministic (v : View) (slice : Nat) (h : v.path ≠ "") :
    v.FragmentPath slice = v.path ++ "/fragments/" ++ Nat.repr slice := by
  unfold View.FragmentPath filepathJoin
  have hdw : ([v.path, "fragments", Nat.repr slice].dropWhile (fun e => e = ""))
      = [v.path, "fragments", Nat.repr slice] := by
    rw [List.dropWhile_cons]
    simp [h]
  rw [hdw]
  show v.path ++ "/" ++ ("fragments" ++ "/" ++ Nat.repr slice)
      = v.path ++ "/fragments/" ++ Nat.repr slice
  rw [← String.append_assoc, String.append_assoc v.path]
  rfl

/-- Witness for C8: `FragmentPath(5)` on root "root" is exactly
"root/fragments/5". -/
theorem fragmentPath_deterministic_witness :
    vW.path ≠ "" ∧ vW.FragmentPath 5 = "root/fragments/5" :=
  ⟨by decide, (fragmentPath_deterministic vW 5 (by decide)).trans (by decide)⟩

end Pilosa
